import Mathlib

/-!
Shallow embedding of the project/form management core of kobocat
(`onadata/apps/api/viewsets/project_viewset.py`): project–form
association, role grants via sharing, project retrieval visibility for
anonymous callers, and tag normalization.  Parts of the repository that
the viewset delegates to (`tools.publish_project_xform`,
`ShareProjectSerializer`, `AnonUserProjectFilter`, `LabelsMixin`) are
modelled from the specification and marked as such.
-/

namespace Kobocat

/-- A project row: `Project` model.  Only the fields the claims need are
kept: the primary key and the anonymous-visibility flag. -/
structure Project where
  id : Nat
  is_public : Bool
deriving DecidableEq, Repr

/-- A project–form association row: `ProjectXForm` model
(the spec's ProjectFormLink). -/
structure ProjectXForm where
  project_id : Nat
  form_id : Nat
deriving DecidableEq, Repr

/-- A role grant of a user on a project: the spec's RoleGrant record,
persisted by the Share Grant Service. -/
structure RoleGrant where
  project_id : Nat
  username : String
  role : String
deriving DecidableEq, Repr

/-- Database state: the tables the viewset's handlers read and write. -/
structure St where
  projects : List Project
  forms : List Nat
  users : List String
  links : List ProjectXForm
  grants : List RoleGrant
deriving DecidableEq, Repr

/-- `Project.objects.get(pk=pk)` as an optional lookup:
first row whose primary key matches. -/
def lookupProject (st : St) (pk : Nat) : Option Project :=
  st.projects.find? (fun q => q.id = pk)

/-- Outcomes of the handlers that the claims distinguish. -/
inductive HErr where
  | notFound
  | valueError
deriving DecidableEq, Repr

/-- Whitespace test used by Python string stripping/splitting. -/
def isWs (c : Char) : Bool :=
  c = ' ' || c = '\t' || c = '\n' || c = '\r'

/-- Strip leading and trailing whitespace (Python `str.strip()`). -/
def trimChars (cs : List Char) : List Char :=
  ((cs.dropWhile isWs).reverse.dropWhile isWs).reverse

/-- Split a character list at every character satisfying `p`, keeping
empty segments (as Python `str.split(sep)` does for a literal
separator). -/
def splitByAux (p : Char → Bool) : List Char → List Char → List (List Char)
  | [], acc => [acc.reverse]
  | c :: cs, acc =>
    if p c then acc.reverse :: splitByAux p cs []
    else splitByAux p cs (c :: acc)

/-- Split a character list at every character satisfying `p`. -/
def splitBy (p : Char → Bool) (cs : List Char) : List (List Char) :=
  splitByAux p cs []

/-- Python `int(s)`: strip surrounding whitespace, optional sign, then a
nonempty run of decimal digits; anything else raises `ValueError`
(`none` here). -/
def pyInt (s : String) : Option Int :=
  let cs := trimChars s.data
  match cs with
  | [] => none
  | c :: rest =>
    if c = '-' then
      if rest ≠ [] ∧ rest.all Char.isDigit then
        some (-(rest.foldl (fun a d => a * 10 + (d.toNat - 48)) 0 : Nat))
      else none
    else if c = '+' then
      if rest ≠ [] ∧ rest.all Char.isDigit then
        some ((rest.foldl (fun a d => a * 10 + (d.toNat - 48)) 0 : Nat))
      else none
    else
      if cs.all Char.isDigit then
        some ((cs.foldl (fun a d => a * 10 + (d.toNat - 48)) 0 : Nat))
      else none

/-- Result of the GET branch of `ProjectViewSet.forms`. -/
inductive FormsResult where
  | list (fids : List Nat)
  | single (fid : Nat)
deriving DecidableEq, Repr

/-- GET branch of `ProjectViewSet.forms` (lines 338, 352–367):
`get_object_or_404(Project, pk=pk)`, then either list the project's
`ProjectXForm` rows, or — when a `formid` path segment is present —
convert it with an unguarded `int(...)` and
`get_object_or_404(ProjectXForm, project=project, xform__pk=...)`. -/
def formsGet (st : St) (pk : Nat) (formid : Option String) : Except HErr FormsResult :=
  match lookupProject st pk with
  | none => .error .notFound
  | some _ =>
    match formid with
    | none =>
      .ok (.list ((st.links.filter (fun l => l.project_id = pk)).map (fun l => l.form_id)))
    | some s =>
      match pyInt s with
      | none => .error .valueError
      | some n =>
        match st.links.find? (fun l => l.project_id = pk ∧ (l.form_id : Int) = n) with
        | none => .error .notFound
        | some l => .ok (.single l.form_id)

/-- POST branch of `ProjectViewSet.forms` with a `formid` payload:
`get_object_or_404(Project, pk=pk)` (line 338) is from the source.
Modelled from the spec: the body of `utils.publish_project_xform`
(not under src/) — per §4.3 `assign` fails with ResourceNotFound when
the form does not exist, and otherwise atomically deletes any existing
link for the form id and inserts the new link. -/
def assign (st : St) (pk fid : Nat) : Except HErr St :=
  match lookupProject st pk with
  | none => .error .notFound
  | some _ =>
    if fid ∈ st.forms then
      .ok { st with
            links := ⟨pk, fid⟩ :: st.links.filter (fun l => l.form_id ≠ fid) }
    else .error .notFound

/-- The state after an assign request: on an error outcome the request
aborts before any write, leaving the state unchanged. -/
def applyAssign (st : St) (op : Nat × Nat) : St :=
  match assign st op.1 op.2 with
  | .ok st' => st'
  | .error _ => st

/-- Run a sequence of assign requests. -/
def runAssigns (st : St) (ops : List (Nat × Nat)) : St :=
  ops.foldl applyAssign st

/-- The §3 uniqueness invariant: no two link rows share a form id. -/
def linksUnique (ls : List ProjectXForm) : Prop :=
  ls.Pairwise (fun a b => a.form_id ≠ b.form_id)

instance (ls : List ProjectXForm) : Decidable (linksUnique ls) := by
  unfold linksUnique
  infer_instance

/-- Lookup in a Python dict built from a list of key/value pairs
(`dict(pairs)`): the last pair for a key wins. -/
def dictGet (pairs : List (String × String)) (k : String) : Option String :=
  (pairs.reverse.find? (fun kv => kv.1 = k)).map (fun kv => kv.2)

/-- The payload `ProjectViewSet.share` hands to the serializer
(lines 372): `dict(request.DATA.items() + [('project', self.object.pk)])`
— the URL object's pk is appended after the caller-supplied fields, so
it overrides any `project` field in the body. -/
def shareData (pk : Nat) (body : List (String × String)) : List (String × String) :=
  body ++ [("project", toString pk)]

/-- The role tokens `ShareProjectSerializer` recognizes (viewset doc:
readonly, dataentry, editor, manager). -/
def validRoles : List String := ["readonly", "dataentry", "editor", "manager"]

/-- Modelled from the spec: `ShareProjectSerializer.is_valid` (not under
src/) — per §4.4 the payload validates exactly when the role is a
recognized Role token and the target username references an existing
principal; otherwise a machine-readable error list is produced. -/
def serializerErrors (st : St) (data : List (String × String)) : List String :=
  (match dictGet data "username" with
   | none => ["username: this field is required"]
   | some u => if u ∈ st.users then [] else ["username: unknown user"]) ++
  (match dictGet data "role" with
   | none => ["role: this field is required"]
   | some r => if r ∈ validRoles then [] else ["role: invalid role"])

/-- Modelled from the spec: `ShareProjectSerializer.save` (not under
src/) — per §4.4 `grant` upserts the RoleGrant for the
(project, username) pair, replacing any prior role for that pair. -/
def grant (st : St) (pk : Nat) (u r : String) : St :=
  { st with
    grants := ⟨pk, u, r⟩ ::
      st.grants.filter (fun g => ¬(g.project_id = pk ∧ g.username = u)) }

/-- Response of the share handler. -/
inductive ShareResp where
  | noContent
  | badRequest (errors : List String)
deriving DecidableEq, Repr

/-- `ProjectViewSet.share` (lines 369–381): build the payload from the
request body plus the URL project pk, run the serializer; on a valid
payload save the grant and answer 204 NO CONTENT, otherwise answer 400
with the serializer's errors and write nothing. -/
def share (st : St) (pk : Nat) (body : List (String × String)) : ShareResp × St :=
  if serializerErrors st (shareData pk body) = [] then
    match dictGet (shareData pk body) "username", dictGet (shareData pk body) "role" with
    | some u, some r => (.noContent, grant st pk u r)
    | _, _ => (.badRequest ["missing field"], st)
  else
    (.badRequest (serializerErrors st (shareData pk body)), st)

/-- Modelled from the spec: the Tag Normalizer (`LabelsMixin`, not under
src/) — per §4.5 split on commas when the raw input contains one,
otherwise split on whitespace; trim each segment, discard empties,
deduplicate. -/
def normalize (raw : String) : List String :=
  let cs := raw.data
  let segs :=
    if cs.any (fun c => c = ',') then splitBy (fun c => c = ',') cs
    else splitBy isWs cs
  ((((segs.map trimChars).filter (fun t => t ≠ [])).dedup).map List.asString)

/-- Outcome classes an anonymous caller can observe when retrieving a
single project. -/
inductive AnonOutcome where
  | notFound
  | publicView
deriving DecidableEq, Repr

/-- Modelled from the spec: the composition of `AnonUserProjectFilter`
with retrieval (the filter lives in `onadata/libs/filters`, not under
src/) — an anonymous principal sees a project only when
`is_public = true` (view-level data); a private or nonexistent project
id yields the same not-found outcome class. -/
def anonRetrieve (st : St) (pk : Nat) : AnonOutcome :=
  match lookupProject st pk with
  | none => .notFound
  | some p => if p.is_public then .publicView else .notFound

instance {e a : Type} [DecidableEq e] [DecidableEq a] : DecidableEq (Except e a)
  | .error x, .error y =>
    if h : x = y then .isTrue (by rw [h]) else .isFalse (by intro c; cases c; exact h rfl)
  | .error _, .ok _ => .isFalse (by intro c; cases c)
  | .ok _, .error _ => .isFalse (by intro c; cases c)
  | .ok x, .ok y =>
    if h : x = y then .isTrue (by rw [h]) else .isFalse (by intro c; cases c; exact h rfl)

/-- A concrete database state used to instantiate the theorems: a
private project 1 and a public project 2, forms 10 and 11, users alice
and bob, form 10 linked to project 1. -/
def exSt : St :=
  { projects := [⟨1, false⟩, ⟨2, true⟩]
    forms := [10, 11]
    users := ["alice", "bob"]
    links := [⟨1, 10⟩]
    grants := [] }

/-- The state `exSt` after assigning form 11 to project 1. -/
def exSt2 : St :=
  { exSt with links := [⟨1, 11⟩, ⟨1, 10⟩] }

/-! ### Theorems -/

/-- Claim C5: a POST to the forms endpoint of a nonexistent project
fails with the not-found outcome and performs no mutation: the state is
unchanged, so in particular no project is silently created. -/
theorem assign_nonexistent_project_not_found (st : St) (pk fid : Nat)
    (h : lookupProject st pk = none) :
    assign st pk fid = .error .notFound ∧ applyAssign st (pk, fid) = st := by
  have ha : assign st pk fid = .error .notFound := by
    unfold assign
    rw [h]
  refine ⟨ha, ?_⟩
  unfold applyAssign
  rw [ha]

/-- Witness for C5: project 99 does not exist in `exSt`; assigning form
10 to it errors and leaves the state unchanged. -/
theorem assign_nonexistent_project_not_found_witness :
    assign exSt 99 10 = .error .notFound ∧ applyAssign exSt (99, 10) = exSt :=
  assign_nonexistent_project_not_found exSt 99 10 (by decide)

/-- Claim C7: an anonymous caller gets the same outcome class for a
private project as for a nonexistent project id (no existence leakage),
and gets view-level success on a public project. -/
theorem anon_no_existence_leak (st : St) (pk pkNone pkPub : Nat) (p q : Project)
    (h1 : lookupProject st pk = some p) (h2 : p.is_public = false)
    (h3 : lookupProject st pkNone = none)
    (h4 : lookupProject st pkPub = some q) (h5 : q.is_public = true) :
    anonRetrieve st pk = anonRetrieve st pkNone
  ∧ anonRetrieve st pk = .notFound
  ∧ anonRetrieve st pkPub = .publicView := by
  simp [anonRetrieve, h1, h2, h3, h4, h5]

/-- Witness for C7: in `exSt`, project 1 is private, project 99 does not
exist, project 2 is public. -/
theorem anon_no_existence_leak_witness :
    anonRetrieve exSt 1 = anonRetrieve exSt 99
  ∧ anonRetrieve exSt 1 = .notFound
  ∧ anonRetrieve exSt 2 = .publicView :=
  anon_no_existence_leak exSt 1 99 2 ⟨1, false⟩ ⟨2, true⟩
    (by decide) (by decide) (by decide) (by decide) (by decide)

/-- Claim C10: on the single-form retrieval path the `formid` path
segment goes through an unguarded `int(...)`: when it is not a decimal
integer the handler raises a conversion error rather than answering
not-found, and the handler avoids the conversion error exactly when the
segment parses as an integer. -/
theorem formid_parse_unguarded (st : St) (pk : Nat) (s : String) (p : Project)
    (hp : lookupProject st pk = some p) :
    (pyInt s = none → formsGet st pk (some s) = .error .valueError)
  ∧ (∀ n : Int, pyInt s = some n → formsGet st pk (some s) ≠ .error .valueError) := by
  constructor
  · intro hbad
    simp [formsGet, hp, hbad]
  · intro n hn
    simp only [formsGet, hp, hn]
    cases hfind : st.links.find? (fun l => l.project_id = pk ∧ (l.form_id : Int) = n) with
    | none => simp [hfind]
    | some l => simp [hfind]

/-- Witness for C10: in `exSt` project 1 exists; the segment "abc" does
not parse and yields the conversion error. -/
theorem formid_parse_unguarded_witness :
    pyInt "abc" = none ∧ formsGet exSt 1 (some "abc") = .error .valueError :=
  ⟨by decide, (formid_parse_unguarded exSt 1 "abc" ⟨1, false⟩ (by decide)).1 (by decide)⟩

/-- Filtering twice with the same predicate equals filtering once. -/
theorem filter_self_idem {α : Type} (p : α → Bool) (l : List α) :
    (l.filter p).filter p = l.filter p := by
  induction l with
  | nil => rfl
  | cons a l ih =>
    by_cases h : p a = true
    · simp [List.filter_cons, h, ih]
    · simp [List.filter_cons, h, ih]

/-- Every link kept by the reassignment filter has a different form id. -/
theorem mem_filter_form_ne (fid : Nat) (l : ProjectXForm) (ls : List ProjectXForm)
    (h : l ∈ ls.filter (fun l => l.form_id ≠ fid)) : l.form_id ≠ fid := by
  have := List.of_mem_filter h
  simpa using this

/-- When the project exists and the form exists, assign succeeds and
replaces any prior link for the form with the new link. -/
theorem assign_eq_ok (st : St) (p f : Nat) (proj : Project)
    (hq : lookupProject st p = some proj) (hf : f ∈ st.forms) :
    assign st p f =
      .ok { st with links := ⟨p, f⟩ :: st.links.filter (fun l => l.form_id ≠ f) } := by
  unfold assign
  rw [hq, if_pos hf]

/-- One assign request preserves the uniqueness invariant on links. -/
theorem applyAssign_preserves_unique (st : St) (op : Nat × Nat)
    (h : linksUnique st.links) : linksUnique (applyAssign st op).links := by
  unfold applyAssign
  cases ha : assign st op.1 op.2 with
  | error e => exact h
  | ok st' =>
    unfold assign at ha
    cases hq : lookupProject st op.1 with
    | none => rw [hq] at ha; cases ha
    | some p =>
      rw [hq] at ha
      by_cases hf : op.2 ∈ st.forms
      · rw [if_pos hf] at ha
        injection ha with ha
        subst ha
        show linksUnique
          ((⟨op.1, op.2⟩ : ProjectXForm) :: st.links.filter (fun l => l.form_id ≠ op.2))
        refine List.Pairwise.cons ?_ (h.filter _)
        intro l hl
        exact fun hEq => mem_filter_form_ne op.2 l st.links hl hEq.symm
      · rw [if_neg hf] at ha
        cases ha

/-- Claim C1: from any state satisfying the uniqueness invariant, every
sequence of assign requests preserves it — no reachable state holds two
links with the same form id, because assigning a form removes any prior
link for that form before inserting the new one. -/
theorem form_linked_to_at_most_one_project (st : St) (ops : List (Nat × Nat))
    (h : linksUnique st.links) : linksUnique (runAssigns st ops).links := by
  induction ops generalizing st with
  | nil => exact h
  | cons op ops ih =>
    unfold runAssigns
    rw [List.foldl_cons]
    exact ih (applyAssign st op) (applyAssign_preserves_unique st op h)

/-- Witness for C1: a concrete run that reassigns form 10 from project 1
to project 2 keeps the invariant. -/
theorem form_linked_to_at_most_one_project_witness :
    linksUnique exSt.links
  ∧ linksUnique (runAssigns exSt [(1, 10), (2, 10), (1, 11)]).links :=
  ⟨by decide, form_linked_to_at_most_one_project exSt [(1, 10), (2, 10), (1, 11)] (by decide)⟩

/-- Claim C2: assign is idempotent — when assigning form f to project p
succeeds producing state st', immediately repeating the same assign
succeeds again and returns the very same state st'. -/
theorem assign_idempotent (st st' : St) (p f : Nat)
    (h : assign st p f = .ok st') : assign st' p f = .ok st' := by
  obtain ⟨proj, hq⟩ : ∃ proj, lookupProject st p = some proj := by
    cases hq : lookupProject st p with
    | none => unfold assign at h; rw [hq] at h; cases h
    | some proj => exact ⟨proj, rfl⟩
  have hf : f ∈ st.forms := by
    by_contra hf
    unfold assign at h
    rw [hq, if_neg hf] at h
    cases h
  have hs : st' = { st with links := ⟨p, f⟩ :: st.links.filter (fun l => l.form_id ≠ f) } := by
    rw [assign_eq_ok st p f proj hq hf] at h
    exact (Except.ok.inj h).symm
  have hq2 : lookupProject st' p = some proj := by rw [hs]; exact hq
  have hf2 : f ∈ st'.forms := by rw [hs]; exact hf
  rw [assign_eq_ok st' p f proj hq2 hf2, hs]
  simp [List.filter_cons, filter_self_idem]

/-- Witness for C2: assigning form 11 to project 1 in `exSt` yields
`exSt2`; repeating the assign returns `exSt2` unchanged. -/
theorem assign_idempotent_witness : assign exSt2 1 11 = .ok exSt2 :=
  assign_idempotent exSt exSt2 1 11 (by decide)

/-- Grants surviving the upsert's removal pass never match the pair
again, so filtering for the pair yields nothing. -/
theorem grant_filter_cancel (pk : Nat) (u : String) (l : List RoleGrant) :
    (l.filter (fun g => ¬(g.project_id = pk ∧ g.username = u))).filter
      (fun g => g.project_id = pk ∧ g.username = u) = [] := by
  induction l with
  | nil => rfl
  | cons a l ih =>
    rw [List.filter_cons]
    by_cases h : a.project_id = pk ∧ a.username = u
    · rw [if_neg (fun hc => (of_decide_eq_true hc) h)]
      exact ih
    · rw [if_pos (decide_eq_true h)]
      rw [List.filter_cons]
      rw [if_neg (fun hc => h (of_decide_eq_true hc))]
      exact ih

/-- The RoleGrant rows recorded for a (project, user) pair. -/
def grantsFor (st : St) (pk : Nat) (u : String) : List RoleGrant :=
  st.grants.filter (fun g => g.project_id = pk ∧ g.username = u)

/-- Claim C3: two successive grants for the same (project, user) pair
leave exactly one RoleGrant for the pair, carrying the second role —
the later grant replaces the earlier one and never adds a second row. -/
theorem grant_last_write_wins (st : St) (p : Nat) (u r1 r2 : String) :
    grantsFor (grant (grant st p u r1) p u r2) p u = [⟨p, u, r2⟩] := by
  unfold grantsFor grant
  rw [List.filter_cons, if_pos (by simp), grant_filter_cancel]

/-- Claim C4: single-form retrieval is link-scoped — with the project
present and the formid parsed, it returns a form exactly when a
ProjectXForm link for (project, formid) exists, and answers not-found
otherwise, regardless of whether the form exists elsewhere. -/
theorem lookup_link_scoped (st : St) (pk : Nat) (s : String) (n : Int) (p : Project)
    (hp : lookupProject st pk = some p) (hn : pyInt s = some n) :
    ((∃ l ∈ st.links, l.project_id = pk ∧ (l.form_id : Int) = n) →
      ∃ f : Nat, formsGet st pk (some s) = .ok (.single f) ∧ (f : Int) = n ∧
        (⟨pk, f⟩ : ProjectXForm) ∈ st.links)
  ∧ ((∀ l ∈ st.links, ¬(l.project_id = pk ∧ (l.form_id : Int) = n)) →
      formsGet st pk (some s) = .error .notFound) := by
  simp only [formsGet, hp, hn]
  constructor
  · rintro ⟨l, hl, hlp, hlf⟩
    cases hfind : st.links.find? (fun l => l.project_id = pk ∧ (l.form_id : Int) = n) with
    | none =>
      exfalso
      rw [List.find?_eq_none] at hfind
      exact (of_decide_eq_false (Bool.not_eq_true _ ▸ hfind l hl)) ⟨hlp, hlf⟩
    | some l' =>
      have hmem : l' ∈ st.links := List.mem_of_find?_eq_some hfind
      have hpred := List.find?_some hfind
      obtain ⟨h1, h2⟩ := of_decide_eq_true hpred
      refine ⟨l'.form_id, by simp [hfind], h2, ?_⟩
      have : (⟨pk, l'.form_id⟩ : ProjectXForm) = l' := by
        cases l'
        simp_all
      rw [this]
      exact hmem
  · intro hnone
    cases hfind : st.links.find? (fun l => l.project_id = pk ∧ (l.form_id : Int) = n) with
    | none => simp [hfind]
    | some l' =>
      exfalso
      have hmem : l' ∈ st.links := List.mem_of_find?_eq_some hfind
      have hpred := List.find?_some hfind
      exact hnone l' hmem (of_decide_eq_true hpred)

/-- Witness for C4: in `exSt`, form 10 is linked to project 1 and found
there, while form 11 exists but is not linked to project 1 and yields
not-found. -/
theorem lookup_link_scoped_witness :
    (∃ f : Nat, formsGet exSt 1 (some "10") = .ok (.single f) ∧ (f : Int) = 10 ∧
      (⟨1, f⟩ : ProjectXForm) ∈ exSt.links)
  ∧ formsGet exSt 1 (some "11") = .error .notFound :=
  ⟨(lookup_link_scoped exSt 1 "10" 10 ⟨1, false⟩ (by decide) (by decide)).1
      (by exact ⟨⟨1, 10⟩, by decide, by decide, by decide⟩),
   (lookup_link_scoped exSt 1 "11" 11 ⟨1, false⟩ (by decide) (by decide)).2
      (by decide)⟩

/-- Claim C6: the tag normalizer splits on commas first and only splits
on whitespace when the raw input has no comma, so space-delimited and
comma-delimited inputs of simple tags agree, and comma-mode preserves a
tag's internal spaces. -/
theorem normalize_comma_first :
    normalize "animal fruit denim" = ["animal", "fruit", "denim"]
  ∧ normalize "animal, fruit, denim" = ["animal", "fruit", "denim"]
  ∧ normalize "animal, brand new" = ["animal", "brand new"]
  ∧ ∀ raw : String, raw.data.any (fun c => c = ',') = false →
      normalize raw =
        ((((splitBy isWs raw.data).map trimChars).filter
            (fun t => t ≠ [])).dedup).map List.asString := by
  refine ⟨by decide, by decide, by decide, ?_⟩
  intro raw h
  simp [normalize, h]

/-- Witness for C6: the comma-free input "clean house tidy" goes through
the whitespace-splitting branch. -/
theorem normalize_comma_first_witness :
    ("clean house tidy".data.any (fun c => c = ',') = false)
  ∧ normalize "clean house tidy" =
      ((((splitBy isWs "clean house tidy".data).map trimChars).filter
          (fun t => t ≠ [])).dedup).map List.asString :=
  ⟨by decide, normalize_comma_first.2.2.2 "clean house tidy" (by decide)⟩

/-- Looking a key up in a dict built from pairs with one pair appended:
the appended pair wins for its own key and is invisible for others. -/
theorem dictGet_append_last (b : List (String × String)) (k0 v k : String) :
    dictGet (b ++ [(k0, v)]) k = if k0 = k then some v else dictGet b k := by
  unfold dictGet
  rw [List.reverse_append]
  by_cases h : k0 = k
  · simp [List.find?_cons, h]
  · simp [List.find?_cons, h]

/-- Claim C9: the share handler records the grant against the project
named in the URL path — the URL pk overrides any `project` field of the
request body, so two requests differing only in that field behave
identically. -/
theorem share_body_project_ignored (st : St) (pk : Nat)
    (b1 b2 : List (String × String))
    (h : ∀ k : String, k ≠ "project" → dictGet b1 k = dictGet b2 k) :
    share st pk b1 = share st pk b2
  ∧ dictGet (shareData pk b1) "project" = some (toString pk) := by
  have hget : ∀ (b : List (String × String)) (k : String), k ≠ "project" →
      dictGet (shareData pk b) k = dictGet b k := by
    intro b k hk
    unfold shareData
    rw [dictGet_append_last, if_neg (fun hh => hk hh.symm)]
  have hu : dictGet (shareData pk b1) "username" = dictGet (shareData pk b2) "username" := by
    rw [hget b1 "username" (by decide), hget b2 "username" (by decide)]
    exact h "username" (by decide)
  have hr : dictGet (shareData pk b1) "role" = dictGet (shareData pk b2) "role" := by
    rw [hget b1 "role" (by decide), hget b2 "role" (by decide)]
    exact h "role" (by decide)
  constructor
  · unfold share serializerErrors
    rw [hu, hr]
  · unfold shareData
    rw [dictGet_append_last, if_pos rfl]

/-- Witness for C9: a body smuggling `project=999` and the same body
without it produce the same outcome at project 1, whose pk the handler
appends. -/
theorem share_body_project_ignored_witness :
    share exSt 1 [("username", "alice"), ("role", "editor"), ("project", "999")]
      = share exSt 1 [("username", "alice"), ("role", "editor")]
  ∧ dictGet (shareData 1 [("username", "alice"), ("role", "editor"), ("project", "999")])
      "project" = some (toString 1) :=
  share_body_project_ignored exSt 1
    [("username", "alice"), ("role", "editor"), ("project", "999")]
    [("username", "alice"), ("role", "editor")]
    (by
      intro k hk
      show dictGet ([("username", "alice"), ("role", "editor")] ++ [("project", "999")]) k
        = dictGet [("username", "alice"), ("role", "editor")] k
      rw [dictGet_append_last, if_neg (fun hh => hk hh.symm)])

/-- Claim C8: a share request succeeds with the no-body success outcome
exactly when the payload validates (known user and recognized role);
otherwise it answers a client error carrying a nonempty error body and
records no grant. -/
theorem share_validation (st : St) (pk : Nat) (body : List (String × String))
    (u r : String)
    (hu : dictGet (shareData pk body) "username" = some u)
    (hr : dictGet (shareData pk body) "role" = some r) :
    ((share st pk body).1 = .noContent ↔ (u ∈ st.users ∧ r ∈ validRoles))
  ∧ (¬(u ∈ st.users ∧ r ∈ validRoles) →
      (share st pk body).2 = st ∧
      ∃ errs : List String, errs ≠ [] ∧ (share st pk body).1 = .badRequest errs) := by
  unfold share serializerErrors
  rw [hu, hr]
  by_cases h1 : u ∈ st.users
  · by_cases h2 : r ∈ validRoles
    · simp [h1, h2]
    · simp [h1, h2]
  · by_cases h2 : r ∈ validRoles
    · simp [h1, h2]
    · simp [h1, h2]

/-- Witness for C8: sharing project 1 of `exSt` with the known user
alice under the unrecognized role "boss" answers a client error with a
nonempty error body and leaves the state (hence the grants) unchanged. -/
theorem share_validation_witness :
    (share exSt 1 [("username", "alice"), ("role", "boss")]).2 = exSt
  ∧ ∃ errs : List String, errs ≠ []
      ∧ (share exSt 1 [("username", "alice"), ("role", "boss")]).1 = .badRequest errs :=
  (share_validation exSt 1 [("username", "alice"), ("role", "boss")] "alice" "boss"
    (by decide) (by decide)).2 (by decide)

end Kobocat
